import Mathlib

/-!
Verification of the STM32 FreeRTOS USB logger (usb_logger.c / usb_logger.h).

The development shallowly embeds the producer/consumer logging pipeline:
the `_write` entry point (printf re-route), the bounded FreeRTOS queue of
`USB_Task_DataStruct` frames, the consumer task loop `usb_logger_task`,
and the timeout timer callback `on_usb_timeout`.

Modelling conventions:
* C `int` values are Lean `Int`; the implicit conversion to `unsigned long`
  in the comparison `len > USB_TX_BUFFER_MAX_SIZE` is made explicit as
  reduction modulo 2^32 (ILP32 target: `int` and `unsigned long` are both
  32 bits wide on the STM32).
* Byte memory handed to `_write` is a `List Nat`; `memcpy` of `n` bytes is
  `List.take n`.  A frame's `tx_buffer` is a 64-byte array in C of which
  only the first `tx_len` bytes are ever read (`CDC_Transmit_FS` receives
  `tx_len` as the length); the model stores exactly the copied prefix.
* FreeRTOS primitives are modelled functionally: `xQueueSend` with a zero
  tick wait appends when fewer than `USB_LOG_QUEUE_MAX` items are held and
  fails otherwise; `xQueueReceive` with zero wait takes the head;
  `uxQueueSpacesAvailable` is capacity minus occupancy.
* The consumer task's infinite loop is modelled as a step function over an
  explicit state; the transport (`CDC_Transmit_FS`, an external collaborator)
  and the timer firing schedule are an environment parameter of each loop
  iteration.  The `do`/`while` transmit retry loop is given explicit fuel;
  an iteration whose retry loop does not exit within the fuel yields `none`
  (the task never gets past that loop, so no further state is reachable).
* Ghost trace fields (`transmitted`, `enqueued`, `delays`, `timerResets`,
  `timerStarts`) record the observable interactions without affecting the
  control flow.
-/

/-- `#define USB_LOG_QUEUE_MAX (5U)` — queue capacity in frames. -/
def USB_LOG_QUEUE_MAX : Nat := 5

/-- `#define USB_TX_BUFFER_MAX_SIZE (64UL)` — frame byte capacity. -/
def USB_TX_BUFFER_MAX_SIZE : Nat := 64

/-- `#define USB_TIMEOUT_MS (5000UL)` — timeout timer period. -/
def USB_TIMEOUT_MS : Nat := 5000

/-- `#define USB_TIMEOUT_RETRY_INTERVAL (5000UL)` — retry wait after a timeout. -/
def USB_TIMEOUT_RETRY_INTERVAL : Nat := 5000

/-- Modelled from the spec: the transport result type of `CDC_Transmit_FS`
(`{Success, Busy, Fail}` in the spec; `USBD_OK` / `USBD_BUSY` / `USBD_FAIL`
of the external ST USB device library, which is not part of this repository). -/
inductive USBD_Status where
  | OK : USBD_Status
  | BUSY : USBD_Status
  | FAIL : USBD_Status
deriving DecidableEq, Repr

/-- Modelled from the spec: the numeric value of the failure sentinel
`USBD_FAIL` returned by `_write` on queue-full.  In the external ST header
the enum is `USBD_OK = 0, USBD_BUSY = 1, USBD_FAIL = 2`. -/
def USBD_FAIL_ret : Int := 2

/-- `USB_Task_DataStruct`: a queued frame.  `tx_buffer` holds the bytes
`memcpy` copied into the fixed 64-byte array (only the first `tx_len` bytes
of the C array are ever read); `tx_len` is the stored length. -/
structure USB_Task_DataStruct where
  tx_buffer : List Nat
  tx_len : Nat
deriving DecidableEq, Repr

/-- Reduction of a C `int` to the `unsigned long` (32-bit) value it converts
to in the usual arithmetic conversions. -/
def toUInt32Nat (x : Int) : Nat := (x % (2 ^ 32 : Int)).toNat

/-- The truncation step of `_write`:
`if (len > USB_TX_BUFFER_MAX_SIZE) len = USB_TX_BUFFER_MAX_SIZE;`.
`len` is `int`, the macro expands to `(64UL)`, so the comparison happens in
`unsigned long`. -/
def writeClampedLen (len : Int) : Int :=
  if toUInt32Nat len > USB_TX_BUFFER_MAX_SIZE then (USB_TX_BUFFER_MAX_SIZE : Int)
  else len

/-- Outcome of one `_write` call: the `int` return value, the queue contents
after the call, and whether `vTaskResume` was invoked. -/
structure WriteResult where
  ret : Int
  queue : List USB_Task_DataStruct
  resumed : Bool
  sent : Option USB_Task_DataStruct
deriving DecidableEq, Repr

/-- `_write(int file, char *ptr, int len)`: truncate `len` to the buffer
capacity, copy that many bytes into a fresh frame, `xQueueSend` with zero
wait; on `pdPASS` resume the logger task and return `len`, otherwise return
`USBD_FAIL`.  `sent` is a ghost copy of the frame when the enqueue succeeds. -/
def _write (queue : List USB_Task_DataStruct) (ptr : List Nat) (len : Int) :
    WriteResult :=
  let len1 := writeClampedLen len
  let data : USB_Task_DataStruct :=
    { tx_buffer := ptr.take len1.toNat, tx_len := len1.toNat }
  if queue.length < USB_LOG_QUEUE_MAX then
    { ret := len1, queue := queue ++ [data], resumed := true, sent := some data }
  else
    { ret := USBD_FAIL_ret, queue := queue, resumed := false, sent := none }

example :
    (_write [] [10, 20, 30] 2).ret = 2 ∧
      (_write [] [10, 20, 30] 2).queue = [⟨[10, 20], 2⟩] := by decide

example : (_write [] (List.range 100) 100).ret = 64 := by decide

example : (_write [] (List.range 100) (-1)).ret = 64 := by decide

/-- The pair actually handed to the transport for a frame:
`CDC_Transmit_FS(queued_data.tx_buffer, queued_data.tx_len)`. -/
def framePair (d : USB_Task_DataStruct) : List Nat × Nat := (d.tx_buffer, d.tx_len)

/-- State of the logger pipeline: the queue contents, the
`is_usb_timeout` flag, whether the logger task is suspended, and ghost
traces of the observable interactions (every `CDC_Transmit_FS` call in
order, every successfully enqueued frame in order, every `vTaskDelay`
duration, and counters of `xTimerReset` / `xTimerStart` calls). -/
structure TaskState where
  queue : List USB_Task_DataStruct
  is_usb_timeout : Bool
  suspended : Bool
  transmitted : List (List Nat × Nat)
  enqueued : List USB_Task_DataStruct
  delays : List Nat
  timerResets : Nat
  timerStarts : Nat
deriving DecidableEq, Repr

/-- State right after `usb_logger_init` plus task startup: empty queue,
`is_usb_timeout = pdFALSE`, the task running (about to enter its loop). -/
def initState : TaskState :=
  { queue := [], is_usb_timeout := false, suspended := false,
    transmitted := [], enqueued := [], delays := [],
    timerResets := 0, timerStarts := 0 }

/-- Environment of one consumer loop iteration: the transport's reply to
the i-th `CDC_Transmit_FS` attempt of this iteration, the attempt index
after which the timeout timer callback runs (if it runs during the retry
loop), and fuel bounding the retry loop's length in the model. -/
structure IterEnv where
  res : Nat → USBD_Status
  fire : Option Nat
  fuel : Nat

/-- Whether `is_usb_timeout` has been set by the timer callback by the time
the loop condition after attempt `i` is evaluated: the callback ran after
some attempt `k ≤ i`. -/
def flagAfter (fire : Option Nat) (i : Nat) : Bool :=
  match fire with
  | none => false
  | some k => decide (k ≤ i)

/-- The `do { rc = CDC_Transmit_FS(...); } while (rc == USBD_BUSY &&
is_usb_timeout == pdFALSE)` loop, starting from attempt index `i`.
Returns the index of the attempt at which the loop exits together with its
result, or `none` if the loop does not exit within the fuel. -/
def transmitLoopFrom (res : Nat → USBD_Status) (fire : Option Nat) :
    Nat → Nat → Option (Nat × USBD_Status)
  | 0, _ => none
  | fuel + 1, i =>
    let rc := res i
    if rc = USBD_Status.BUSY ∧ flagAfter fire i = false then
      transmitLoopFrom res fire fuel (i + 1)
    else
      some (i, rc)

/-- The retry loop from its first attempt. -/
def transmitLoop (env : IterEnv) : Option (Nat × USBD_Status) :=
  transmitLoopFrom env.res env.fire env.fuel 0

/-- The tail of every loop iteration of `usb_logger_task`: if
`is_usb_timeout == pdTRUE`, `vTaskDelay` the retry interval, clear the flag
and `xTimerReset`; otherwise read `uxQueueSpacesAvailable` and
`vTaskSuspend` the task's own handle when all `USB_LOG_QUEUE_MAX` slots are
free. -/
def afterBranch (s : TaskState) : TaskState :=
  if s.is_usb_timeout then
    { s with delays := s.delays ++ [USB_TIMEOUT_RETRY_INTERVAL],
             is_usb_timeout := false,
             timerResets := s.timerResets + 1 }
  else
    if USB_LOG_QUEUE_MAX - s.queue.length = USB_LOG_QUEUE_MAX then
      { s with suspended := true }
    else s

/-- One iteration of the `for (;;)` loop of `usb_logger_task`:
`xQueueReceive` with zero wait; if a frame was received and
`is_usb_timeout == pdFALSE`, `xTimerStart` and run the transmit retry loop
(each attempt appends the frame's `(tx_buffer, tx_len)` pair to the
`transmitted` trace, and the flag afterwards reflects whether the timer
fired during the loop); then the timeout/suspend tail.  `none` means the
retry loop did not exit within the environment's fuel. -/
def iterStep (s : TaskState) (env : IterEnv) : Option TaskState :=
  match s.queue with
  | [] => some (afterBranch s)
  | d :: rest =>
    if s.is_usb_timeout then
      some (afterBranch { s with queue := rest })
    else
      match transmitLoop env with
      | none => none
      | some (i, _) =>
        some (afterBranch
          { s with queue := rest,
                   timerStarts := s.timerStarts + 1,
                   transmitted :=
                     s.transmitted ++ List.replicate (i + 1) (framePair d),
                   is_usb_timeout := flagAfter env.fire i })

/-- `_write` as a state transition: the queue is updated and, when the
enqueue succeeded, `vTaskResume(usb_task_handle)` clears the suspension;
`enqueued` is the ghost trace of accepted frames. -/
def writeStep (s : TaskState) (ptr : List Nat) (len : Int) : TaskState :=
  let w := _write s.queue ptr len
  { s with queue := w.queue,
           suspended := if w.resumed then false else s.suspended,
           enqueued :=
             match w.sent with
             | some d => s.enqueued ++ [d]
             | none => s.enqueued }

/-- An event of the pipeline: a producer call to `_write`, one scheduled
iteration of the consumer loop, or the timeout timer callback
`on_usb_timeout` running outside the retry loop. -/
inductive Event where
  | writeEv (ptr : List Nat) (len : Int) : Event
  | taskIter (env : IterEnv) : Event
  | timerFire : Event

/-- One event step.  A `taskIter` of a suspended task is impossible (the
scheduler does not run a suspended task), as is an iteration whose retry
loop never exits; both are `none`.  `on_usb_timeout` sets
`is_usb_timeout = pdTRUE`. -/
def runStep (s : TaskState) : Event → Option TaskState
  | Event.writeEv ptr len => some (writeStep s ptr len)
  | Event.taskIter env => if s.suspended then none else iterStep s env
  | Event.timerFire => some { s with is_usb_timeout := true }

/-- Run a list of events in order; `none` as soon as a step is impossible. -/
def runEvents (s : TaskState) : List Event → Option TaskState
  | [] => some s
  | e :: rest =>
    match runStep s e with
    | none => none
    | some s1 => runEvents s1 rest

/-- An always-successful transport iteration with no timer activity. -/
def okEnv : IterEnv := { res := fun _ => USBD_Status.OK, fire := none, fuel := 1 }

/-- An always-busy transport iteration during which the timer callback
runs after the third attempt (attempt index 2). -/
def busyEnv : IterEnv :=
  { res := fun _ => USBD_Status.BUSY, fire := some 2, fuel := 4 }

/-- An always-failing transport iteration with no timer activity. -/
def failEnv : IterEnv :=
  { res := fun _ => USBD_Status.FAIL, fire := none, fuel := 5 }

/-- A concrete one-byte frame, used by witnesses. -/
def frameA : USB_Task_DataStruct := { tx_buffer := [1], tx_len := 1 }

/-- A second concrete one-byte frame, used by witnesses. -/
def frameB : USB_Task_DataStruct := { tx_buffer := [2], tx_len := 1 }

/-- A concrete full queue (five one-byte frames), used by witnesses. -/
def fullQueue : List USB_Task_DataStruct := List.replicate 5 frameA

/-- A concrete suspended state with a full queue, used by witnesses. -/
def fullSuspState : TaskState :=
  { initState with queue := fullQueue, suspended := true }

/-- A concrete running state holding two queued frames, used by witnesses. -/
def twoFrameState : TaskState := { initState with queue := [frameA, frameB] }

/-- The frame a call `_write(file, ptr, len)` builds (truncation followed by
`memcpy`): exactly the frame `_write` enqueues when `xQueueSend` succeeds. -/
def writeData (ptr : List Nat) (len : Int) : USB_Task_DataStruct :=
  { tx_buffer := ptr.take (writeClampedLen len).toNat,
    tx_len := (writeClampedLen len).toNat }

/-- The state after a consumer iteration that dequeued `d` (leaving `rest`),
busy-polled it `k + 1` times until the timer callback set the flag after
attempt `k`, and then ran the timeout branch: `d` is gone, its `k + 1`
transmit attempts are on the trace, `vTaskDelay` of the retry interval was
called, the flag is cleared and the timer was reset. -/
def timeoutAftermath (s : TaskState) (d : USB_Task_DataStruct)
    (rest : List USB_Task_DataStruct) (k : Nat) : TaskState :=
  { s with queue := rest,
           timerStarts := s.timerStarts + 1,
           transmitted := s.transmitted ++ List.replicate (k + 1) (framePair d),
           is_usb_timeout := false,
           delays := s.delays ++ [USB_TIMEOUT_RETRY_INTERVAL],
           timerResets := s.timerResets + 1 }

/-- The state after a consumer iteration that dequeued a frame while the
timeout flag was already set: the frame is dropped without any transmit
attempt and the timeout branch runs (delay, clear flag, reset timer). -/
def flaggedDropState (s : TaskState) (rest : List USB_Task_DataStruct) :
    TaskState :=
  { s with queue := rest,
           is_usb_timeout := false,
           delays := s.delays ++ [USB_TIMEOUT_RETRY_INTERVAL],
           timerResets := s.timerResets + 1 }

/-- "The transport always reports success": every transmit attempt of every
consumer iteration in the run returns `USBD_OK`.  Timer events are not
constrained — the timer is not the transport. -/
def transportOkEvent : Event → Prop
  | Event.taskIter env => ∀ i, env.res i = USBD_Status.OK
  | Event.writeEv _ _ => True
  | Event.timerFire => True

/-- "The transport always reports success and the timeout timer never
fires": the constraint of the amended FIFO-ordering claim. -/
def alwaysOkEvent : Event → Prop
  | Event.taskIter env => (∀ i, env.res i = USBD_Status.OK) ∧ env.fire = none
  | Event.writeEv _ _ => True
  | Event.timerFire => False

example :
    runEvents initState
        [Event.writeEv [7, 8] 2, Event.taskIter okEnv] =
      some { queue := [], is_usb_timeout := false, suspended := true,
             transmitted := [([7, 8], 2)], enqueued := [⟨[7, 8], 2⟩],
             delays := [], timerResets := 0, timerStarts := 1 } := by decide

/-! ## Basic lemmas about the truncation of `len` -/

/-- For `0 ≤ len ≤ 64` the unsigned comparison is false and `len` is kept. -/
lemma writeClampedLen_of_le (len : Int) (h1 : 0 ≤ len) (h2 : len ≤ 64) :
    writeClampedLen len = len := by
  unfold writeClampedLen toUInt32Nat USB_TX_BUFFER_MAX_SIZE
  rw [if_neg]
  omega

/-- For a representable `int` above the capacity the comparison is true. -/
lemma writeClampedLen_of_gt (len : Int) (h1 : 64 < len) (h2 : len < 2 ^ 31) :
    writeClampedLen len = 64 := by
  unfold writeClampedLen toUInt32Nat USB_TX_BUFFER_MAX_SIZE
  rw [if_pos (by omega)]
  norm_num

/-- A negative representable `int` converts to an unsigned value of at
least `2^31`, so the comparison against `64UL` is true. -/
lemma writeClampedLen_of_neg (len : Int) (h1 : -(2 ^ 31) ≤ len) (h2 : len < 0) :
    writeClampedLen len = 64 := by
  unfold writeClampedLen toUInt32Nat USB_TX_BUFFER_MAX_SIZE
  rw [if_pos (by omega)]
  norm_num

/-- A successful `_write` followed by one consumer iteration against an
always-successful transport: the single enqueued frame is handed to the
transport exactly once and the task suspends on the now-empty queue. -/
lemma run_write_then_iter (ptr : List Nat) (len : Int) :
    runEvents initState [Event.writeEv ptr len, Event.taskIter okEnv] =
      some { queue := [], is_usb_timeout := false, suspended := true,
             transmitted :=
               [(ptr.take (writeClampedLen len).toNat, (writeClampedLen len).toNat)],
             enqueued :=
               [⟨ptr.take (writeClampedLen len).toNat, (writeClampedLen len).toNat⟩],
             delays := [], timerResets := 0, timerStarts := 1 } := by
  simp [runEvents, runStep, writeStep, iterStep, _write, afterBranch,
        transmitLoop, transmitLoopFrom, okEnv, flagAfter, initState, framePair,
        USB_LOG_QUEUE_MAX]

/-! ## Claim theorems about `_write` -/

/-- Claim C4: whenever the queue already holds `USB_LOG_QUEUE_MAX = 5`
frames, a further `_write` returns the failure sentinel `USBD_FAIL` and
leaves the queue exactly as it was (same frames, same order); the call is
non-blocking (`xQueueSend` is invoked with a zero tick wait, so it returns
immediately — reflected in the model by `_write` being a total function of
the pre-state). -/
theorem C4_queue_full_write_fails (q : List USB_Task_DataStruct)
    (ptr : List Nat) (len : Int) (h : q.length = USB_LOG_QUEUE_MAX) :
    (_write q ptr len).ret = USBD_FAIL_ret ∧ (_write q ptr len).queue = q := by
  unfold _write
  rw [if_neg (by omega)]
  exact ⟨rfl, rfl⟩

theorem C4_queue_full_write_fails_witness :
    (_write (List.replicate 5 ⟨[1], 1⟩) [2] 1).ret = USBD_FAIL_ret ∧
      (_write (List.replicate 5 ⟨[1], 1⟩) [2] 1).queue =
        List.replicate 5 ⟨[1], 1⟩ :=
  C4_queue_full_write_fails (List.replicate 5 ⟨[1], 1⟩) [2] 1 (by decide)

/-- Claim C9: when `_write` fails because the queue is full, `vTaskResume`
is not called (the resume is only on the `pdPASS` branch), so the consumer
task's suspended/running state is unchanged by the failed call. -/
theorem C9_full_write_no_resume (s : TaskState) (ptr : List Nat) (len : Int)
    (h : s.queue.length = USB_LOG_QUEUE_MAX) :
    (_write s.queue ptr len).resumed = false ∧
      (writeStep s ptr len).suspended = s.suspended ∧
      (writeStep s ptr len).queue = s.queue := by
  unfold writeStep _write
  rw [if_neg (by omega)]
  simp

theorem C9_full_write_no_resume_witness :
    (_write fullSuspState.queue [2] 1).resumed = false ∧
      (writeStep fullSuspState [2] 1).suspended = fullSuspState.suspended ∧
      (writeStep fullSuspState [2] 1).queue = fullSuspState.queue :=
  C9_full_write_no_resume fullSuspState [2] 1 (by decide)

/-- Claim C5: a `_write` whose `len` exceeds the frame capacity 64 (any
representable C `int` above 64) is clamped: on successful enqueue exactly
the first 64 bytes of `ptr` are stored, the stored length is 64, the return
value is 64, and a consumer iteration delivers exactly that 64-byte prefix
to the transport — bytes beyond index 64 never reach it. -/
theorem C5_long_write_truncated (q : List USB_Task_DataStruct)
    (ptr : List Nat) (len : Int) (h1 : 64 < len) (h2 : len < 2 ^ 31)
    (hq : q.length < USB_LOG_QUEUE_MAX) (hp : 64 ≤ ptr.length) :
    (_write q ptr len).ret = 64 ∧
      (_write q ptr len).queue = q ++ [⟨ptr.take 64, 64⟩] ∧
      (ptr.take 64).length = 64 ∧
      runEvents initState [Event.writeEv ptr len, Event.taskIter okEnv] =
        some { queue := [], is_usb_timeout := false, suspended := true,
               transmitted := [(ptr.take 64, 64)],
               enqueued := [⟨ptr.take 64, 64⟩],
               delays := [], timerResets := 0, timerStarts := 1 } := by
  have hc := writeClampedLen_of_gt len h1 h2
  refine ⟨?_, ?_, ?_, ?_⟩
  · unfold _write
    rw [if_pos hq]
    simpa using hc
  · unfold _write
    rw [if_pos hq]
    simp [hc]
  · simp [List.length_take]
    omega
  · rw [run_write_then_iter ptr len, hc]
    simp

theorem C5_long_write_truncated_witness :
    (_write [] (List.range 100) 100).ret = 64 ∧
      (_write [] (List.range 100) 100).queue =
        [⟨(List.range 100).take 64, 64⟩] ∧
      ((List.range 100).take 64).length = 64 ∧
      runEvents initState
          [Event.writeEv (List.range 100) 100, Event.taskIter okEnv] =
        some { queue := [], is_usb_timeout := false, suspended := true,
               transmitted := [((List.range 100).take 64, 64)],
               enqueued := [⟨(List.range 100).take 64, 64⟩],
               delays := [], timerResets := 0, timerStarts := 1 } := by
  have h := C5_long_write_truncated [] (List.range 100) 100 (by decide)
    (by decide) (by decide) (by decide)
  simpa using h

/-- Claim C6: a `_write` with `0 ≤ len ≤ 64` that enqueues successfully
copies exactly the first `len` bytes of `ptr`, unmodified and in order,
into the frame, stores length `len`, and returns `len`. -/
theorem C6_short_write_exact (q : List USB_Task_DataStruct)
    (ptr : List Nat) (len : Int) (h1 : 0 ≤ len) (h2 : len ≤ 64)
    (hq : q.length < USB_LOG_QUEUE_MAX) (hp : len.toNat ≤ ptr.length) :
    (_write q ptr len).ret = len ∧
      (_write q ptr len).queue = q ++ [⟨ptr.take len.toNat, len.toNat⟩] ∧
      (ptr.take len.toNat).length = len.toNat := by
  have hc := writeClampedLen_of_le len h1 h2
  refine ⟨?_, ?_, ?_⟩
  · unfold _write
    rw [if_pos hq]
    simpa using hc
  · unfold _write
    rw [if_pos hq]
    simp [hc]
  · simp [List.length_take]
    omega

theorem C6_short_write_exact_witness :
    (_write [] [9, 8, 7, 6] 3).ret = 3 ∧
      (_write [] [9, 8, 7, 6] 3).queue =
        [⟨[9, 8, 7, 6].take (3 : Int).toNat, (3 : Int).toNat⟩] ∧
      ([9, 8, 7, 6].take (3 : Int).toNat).length = (3 : Int).toNat :=
  C6_short_write_exact [] [9, 8, 7, 6] 3 (by decide) (by decide)
    (by decide) (by decide)

/-- Claim C10: a `_write` with negative `len` (any representable C `int`
below 0) hits the clamp, because the comparison `len > 64UL` converts the
signed `len` to `unsigned long`, making every negative value compare
greater than 64.  On successful enqueue the stored frame has length 64 and
the call returns 64. -/
theorem C10_negative_len_clamped (q : List USB_Task_DataStruct)
    (ptr : List Nat) (len : Int) (h1 : -(2 ^ 31) ≤ len) (h2 : len < 0)
    (hq : q.length < USB_LOG_QUEUE_MAX) :
    (_write q ptr len).ret = 64 ∧
      (_write q ptr len).queue = q ++ [⟨ptr.take 64, 64⟩] := by
  have hc := writeClampedLen_of_neg len h1 h2
  constructor
  · unfold _write
    rw [if_pos hq]
    simpa using hc
  · unfold _write
    rw [if_pos hq]
    simp [hc]

theorem C10_negative_len_clamped_witness :
    (_write [] (List.range 70) (-1)).ret = 64 ∧
      (_write [] (List.range 70) (-1)).queue =
        [⟨(List.range 70).take 64, 64⟩] := by
  have h := C10_negative_len_clamped [] (List.range 70) (-1) (by decide)
    (by decide) (by decide)
  simpa using h

/-! ## Lemmas about the loop tail and the transmit retry loop -/

lemma afterBranch_queue (s : TaskState) : (afterBranch s).queue = s.queue := by
  unfold afterBranch
  split
  · rfl
  · split <;> rfl

lemma afterBranch_transmitted (s : TaskState) :
    (afterBranch s).transmitted = s.transmitted := by
  unfold afterBranch
  split
  · rfl
  · split <;> rfl

lemma afterBranch_enqueued (s : TaskState) :
    (afterBranch s).enqueued = s.enqueued := by
  unfold afterBranch
  split
  · rfl
  · split <;> rfl

/-- The loop tail always leaves the timeout flag clear: either the flag was
set and the retry branch clears it, or it was already clear. -/
lemma afterBranch_flag (s : TaskState) :
    (afterBranch s).is_usb_timeout = false := by
  unfold afterBranch
  split
  · rfl
  · split <;> simp_all

/-- If the loop tail flips the task from running to suspended, the flag was
clear and the queue was empty at the `uxQueueSpacesAvailable` check. -/
lemma afterBranch_suspend_cond (s : TaskState) (h : s.suspended = false)
    (h' : (afterBranch s).suspended = true) :
    s.queue = [] ∧ s.is_usb_timeout = false := by
  unfold afterBranch at h'
  split at h'
  · simp_all
  · split at h'
    · rename_i hcond
      refine ⟨?_, by simp_all⟩
      have hlen : s.queue.length = 0 := by
        simp only [USB_LOG_QUEUE_MAX] at hcond
        omega
      exact List.length_eq_zero.mp hlen
    · simp_all

/-- If the first transmit attempt does not report `USBD_BUSY`, the retry
loop exits immediately after that single attempt. -/
lemma transmitLoop_first_not_busy (env : IterEnv)
    (h : env.res 0 ≠ USBD_Status.BUSY) (hf : 1 ≤ env.fuel) :
    transmitLoop env = some (0, env.res 0) := by
  unfold transmitLoop
  match hfu : env.fuel with
  | 0 => omega
  | fuel + 1 =>
    unfold transmitLoopFrom
    rw [if_neg]
    intro hcontra
    exact h hcontra.1

/-- Every completed consumer iteration is the loop tail applied to an
intermediate state with the same suspension status as the pre-state and a
queue that is either unchanged or the pre-state queue minus its head. -/
lemma iterStep_shape (s : TaskState) (env : IterEnv) (s' : TaskState)
    (h : iterStep s env = some s') :
    ∃ s1 : TaskState, s' = afterBranch s1 ∧ s1.suspended = s.suspended ∧
      (s1.queue = s.queue ∨ ∃ d, s.queue = d :: s1.queue) := by
  unfold iterStep at h
  split at h
  · exact ⟨s, (Option.some.inj h).symm, rfl, Or.inl rfl⟩
  · rename_i d rest hq
    split at h
    · exact ⟨{ s with queue := rest }, (Option.some.inj h).symm, rfl,
        Or.inr ⟨d, hq⟩⟩
    · split at h
      · exact Option.noConfusion h
      · exact ⟨_, (Option.some.inj h).symm, rfl, Or.inr ⟨d, hq⟩⟩

/-- An always-busy transport with the timer firing after attempt `k`: the
loop runs attempts `i, i+1, …, k` and exits at attempt `k` with
`USBD_BUSY`, the flag now set. -/
lemma transmitLoopFrom_busy (res : Nat → USBD_Status)
    (hres : ∀ i, res i = USBD_Status.BUSY) (k : Nat) :
    ∀ fuel i, i ≤ k → k < i + fuel →
      transmitLoopFrom res (some k) fuel i = some (k, USBD_Status.BUSY) := by
  intro fuel
  induction fuel with
  | zero => intro i h1 h2; omega
  | succ n ih =>
    intro i h1 h2
    unfold transmitLoopFrom
    by_cases hik : i = k
    · subst hik
      rw [if_neg]
      · rw [hres i]
      · intro hcontra
        have := hcontra.2
        simp [flagAfter] at this
    · rw [if_pos]
      · exact ih (i + 1) (by omega) (by omega)
      · exact ⟨hres i, by simp [flagAfter]; omega⟩

/-! ## Claim theorems about the consumer task -/

/-- Claim C7: the consumer task becomes suspended only through its own loop
tail, and only when the free-slot count equals `USB_LOG_QUEUE_MAX` (queue
empty) with the timeout flag clear.  First conjunct: a consumer iteration
that flips the task from running to suspended ends with an empty queue and
a clear flag (it never suspends with a frame queued or the flag set).
Second conjunct: a producer `_write` never suspends the task.  Third
conjunct: the timer callback never changes the suspension status.  Thus
suspension is self-inflicted by the task. -/
theorem C7_suspend_only_when_idle :
    (∀ (s : TaskState) (env : IterEnv) (s' : TaskState),
        iterStep s env = some s' → s.suspended = false → s'.suspended = true →
          s'.queue = [] ∧ s'.is_usb_timeout = false) ∧
      (∀ (s : TaskState) (ptr : List Nat) (len : Int),
        (writeStep s ptr len).suspended = true → s.suspended = true) ∧
      (∀ (s s' : TaskState), runStep s Event.timerFire = some s' →
        s'.suspended = s.suspended) := by
  refine ⟨?_, ?_, ?_⟩
  · intro s env s' hstep hs hs'
    obtain ⟨s1, rfl, hsusp, -⟩ := iterStep_shape s env s' hstep
    have hcond := afterBranch_suspend_cond s1 (hsusp.trans hs) hs'
    exact ⟨(afterBranch_queue s1).trans hcond.1, afterBranch_flag s1⟩
  · intro s ptr len h
    unfold writeStep _write at h
    by_cases hq : s.queue.length < USB_LOG_QUEUE_MAX
    · simp [hq] at h
    · simpa [hq] using h
  · intro s s' h
    simp only [runStep, Option.some.injEq] at h
    rw [← h]

theorem C7_suspend_only_when_idle_witness :
    ({ queue := [], is_usb_timeout := false, suspended := true,
       transmitted := [([1], 1)], enqueued := [], delays := [],
       timerResets := 0, timerStarts := 1 } : TaskState).queue = [] ∧
      ({ queue := [], is_usb_timeout := false, suspended := true,
         transmitted := [([1], 1)], enqueued := [], delays := [],
         timerResets := 0, timerStarts := 1 } : TaskState).is_usb_timeout =
        false :=
  C7_suspend_only_when_idle.1 { initState with queue := [frameA] } okEnv
    { queue := [], is_usb_timeout := false, suspended := true,
      transmitted := [([1], 1)], enqueued := [], delays := [],
      timerResets := 0, timerStarts := 1 }
    (by decide) (by decide) (by decide)

/-! ## Trace lemmas: where transmitted pairs can come from -/

/-- A `_write` transition never transmits, and either leaves the queue and
the ghost enqueue trace unchanged (queue-full) or appends the built frame
to both (successful enqueue). -/
lemma writeStep_cases (s : TaskState) (ptr : List Nat) (len : Int) :
    (writeStep s ptr len).transmitted = s.transmitted ∧
      ((writeStep s ptr len).queue = s.queue ∧
          (writeStep s ptr len).enqueued = s.enqueued ∨
        (writeStep s ptr len).queue = s.queue ++ [writeData ptr len] ∧
          (writeStep s ptr len).enqueued = s.enqueued ++ [writeData ptr len]) := by
  unfold writeStep _write writeData
  by_cases hq : s.queue.length < USB_LOG_QUEUE_MAX
  · simp [hq]
  · simp [hq]

/-- A completed consumer iteration never enqueues, only dequeues from the
existing queue, and every pair it appends to the transmit trace is the pair
of a frame that was in the queue before the iteration. -/
lemma iterStep_trace (s : TaskState) (env : IterEnv) (s' : TaskState)
    (h : iterStep s env = some s') :
    s'.enqueued = s.enqueued ∧
      (∀ f, f ∈ s'.queue → f ∈ s.queue) ∧
      ∃ ext, s'.transmitted = s.transmitted ++ ext ∧
        ∀ p, p ∈ ext → ∃ f, f ∈ s.queue ∧ framePair f = p := by
  unfold iterStep at h
  split at h
  · obtain rfl := (Option.some.inj h).symm
    refine ⟨afterBranch_enqueued s, ?_, [], by simp [afterBranch_transmitted], by simp⟩
    intro f hf
    rw [afterBranch_queue] at hf
    exact hf
  · rename_i d rest hq
    split at h
    · obtain rfl := (Option.some.inj h).symm
      refine ⟨afterBranch_enqueued _, ?_, [], by simp [afterBranch_transmitted], by simp⟩
      intro f hf
      rw [afterBranch_queue] at hf
      rw [hq]
      exact List.mem_cons_of_mem d hf
    · split at h
      · exact Option.noConfusion h
      · rename_i i rc htl
        obtain rfl := (Option.some.inj h).symm
        refine ⟨afterBranch_enqueued _, ?_, List.replicate (i + 1) (framePair d),
          by simp [afterBranch_transmitted], ?_⟩
        · intro f hf
          rw [afterBranch_queue] at hf
          rw [hq]
          exact List.mem_cons_of_mem d hf
        · intro p hp
          refine ⟨d, by rw [hq]; exact List.mem_cons_self d rest, ?_⟩
          exact (List.eq_of_mem_replicate hp).symm

/-- Single-event version of the trace containment: across one event, the
ghost enqueue trace only grows, every frame in the new queue was already
queued or was enqueued by this event, every new transmitted pair is the
pair of an old queued frame or of a newly enqueued one, and newly enqueued
frames come only from `_write` events. -/
lemma runStep_trace (s : TaskState) (e : Event) (s1 : TaskState)
    (h : runStep s e = some s1) :
    ∃ newEnq ext,
      s1.enqueued = s.enqueued ++ newEnq ∧
        s1.transmitted = s.transmitted ++ ext ∧
        (∀ f, f ∈ s1.queue → f ∈ s.queue ∨ f ∈ newEnq) ∧
        (∀ p, p ∈ ext →
          (∃ f, f ∈ s.queue ∧ framePair f = p) ∨
            ∃ f, f ∈ newEnq ∧ framePair f = p) ∧
        (∀ f, f ∈ newEnq →
          ∃ ptr len, e = Event.writeEv ptr len ∧ f = writeData ptr len) := by
  cases e with
  | writeEv ptr len =>
    obtain rfl := (Option.some.inj h).symm
    rcases writeStep_cases s ptr len with ⟨ht, hcase⟩
    rcases hcase with ⟨hqe, hee⟩ | ⟨hqe, hee⟩
    · exact ⟨[], [], by simp [hee], by simp [ht],
        fun f hf => Or.inl (by rw [hqe] at hf; exact hf), by simp, by simp⟩
    · refine ⟨[writeData ptr len], [], by simp [hee], by simp [ht], ?_,
        by simp, ?_⟩
      · intro f hf
        rw [hqe] at hf
        rcases List.mem_append.mp hf with h1 | h2
        · exact Or.inl h1
        · exact Or.inr h2
      · intro f hf
        rw [List.mem_singleton] at hf
        exact ⟨ptr, len, rfl, hf⟩
  | taskIter env =>
    simp only [runStep] at h
    split at h
    · exact Option.noConfusion h
    · rcases iterStep_trace s env s1 h with ⟨he, hq, ext, ht, hp⟩
      exact ⟨[], ext, by simp [he], ht, fun f hf => Or.inl (hq f hf),
        fun p hp' => Or.inl (hp p hp'), by simp⟩
  | timerFire =>
    obtain rfl := (Option.some.inj h).symm
    exact ⟨[], [], by simp, by simp, fun f hf => Or.inl hf, by simp, by simp⟩

/-- Trace containment across a run: every frame still queued was queued at
the start or enqueued by some `_write` event of the run, and every pair
appended to the transmit trace is the pair of such a frame. -/
lemma runEvents_trace (evs : List Event) :
    ∀ s s' : TaskState, runEvents s evs = some s' →
      ∃ newEnq ext,
        s'.enqueued = s.enqueued ++ newEnq ∧
          s'.transmitted = s.transmitted ++ ext ∧
          (∀ f, f ∈ s'.queue → f ∈ s.queue ∨ f ∈ newEnq) ∧
          (∀ p, p ∈ ext →
            (∃ f, f ∈ s.queue ∧ framePair f = p) ∨
              ∃ f, f ∈ newEnq ∧ framePair f = p) ∧
          (∀ f, f ∈ newEnq →
            ∃ ptr len, Event.writeEv ptr len ∈ evs ∧ f = writeData ptr len) := by
  induction evs with
  | nil =>
    intro s s' h
    obtain rfl := (Option.some.inj h).symm
    exact ⟨[], [], by simp, by simp, fun f hf => Or.inl hf, by simp, by simp⟩
  | cons e rest ih =>
    intro s s' h
    unfold runEvents at h
    split at h
    · exact Option.noConfusion h
    · rename_i s1 heq
      rcases runStep_trace s e s1 heq with ⟨n1, e1, he1, ht1, hq1, hp1, hw1⟩
      rcases ih s1 s' h with ⟨n2, e2, he2, ht2, hq2, hp2, hw2⟩
      refine ⟨n1 ++ n2, e1 ++ e2, ?_, ?_, ?_, ?_, ?_⟩
      · rw [he2, he1, List.append_assoc]
      · rw [ht2, ht1, List.append_assoc]
      · intro f hf
        rcases hq2 f hf with h1 | h2
        · rcases hq1 f h1 with ha | hb
          · exact Or.inl ha
          · exact Or.inr (List.mem_append.mpr (Or.inl hb))
        · exact Or.inr (List.mem_append.mpr (Or.inr h2))
      · intro p hp
        rcases List.mem_append.mp hp with h1 | h2
        · rcases hp1 p h1 with ⟨f, hf, hfp⟩ | ⟨f, hf, hfp⟩
          · exact Or.inl ⟨f, hf, hfp⟩
          · exact Or.inr ⟨f, List.mem_append.mpr (Or.inl hf), hfp⟩
        · rcases hp2 p h2 with ⟨f, hf, hfp⟩ | ⟨f, hf, hfp⟩
          · rcases hq1 f hf with ha | hb
            · exact Or.inl ⟨f, ha, hfp⟩
            · exact Or.inr ⟨f, List.mem_append.mpr (Or.inl hb), hfp⟩
          · exact Or.inr ⟨f, List.mem_append.mpr (Or.inr hf), hfp⟩
      · intro f hf
        rcases List.mem_append.mp hf with h1 | h2
        · rcases hw1 f h1 with ⟨ptr, len, he, hfd⟩
          exact ⟨ptr, len, he ▸ List.mem_cons_self e rest, hfd⟩
        · rcases hw2 f h2 with ⟨ptr, len, he, hfd⟩
          exact ⟨ptr, len, List.mem_cons_of_mem e he, hfd⟩

/-- If a pair `p` matches no frame queued at the start of a run and no
frame enqueued by any `_write` event of the run, then `p` does not occur in
the portion of the transmit trace the run adds. -/
lemma transmit_fresh_only (evs : List Event) (s s' : TaskState)
    (p : List Nat × Nat) (h : runEvents s evs = some s')
    (hq : ∀ f, f ∈ s.queue → framePair f ≠ p)
    (hw : ∀ ptr len, Event.writeEv ptr len ∈ evs →
      framePair (writeData ptr len) ≠ p) :
    ∃ ext, s'.transmitted = s.transmitted ++ ext ∧ p ∉ ext := by
  rcases runEvents_trace evs s s' h with ⟨n, ext, -, ht, -, hp, hwn⟩
  refine ⟨ext, ht, ?_⟩
  intro hmem
  rcases hp p hmem with ⟨f, hf, hfp⟩ | ⟨f, hf, hfp⟩
  · exact hq f hf hfp
  · rcases hwn f hf with ⟨ptr, len, he, rfl⟩
    exact hw ptr len he hfp

/-- Computation of a busy-polled iteration: a frame at the head of the
queue, flag clear, an always-busy transport, and the timer callback firing
after attempt `k` (within fuel) give attempts `0 … k` and then the timeout
branch. -/
lemma iterStep_busy (s : TaskState) (d : USB_Task_DataStruct)
    (rest : List USB_Task_DataStruct) (env : IterEnv) (k : Nat)
    (hq : s.queue = d :: rest) (hflag : s.is_usb_timeout = false)
    (hres : ∀ i, env.res i = USBD_Status.BUSY) (hfire : env.fire = some k)
    (hfuel : k < env.fuel) :
    iterStep s env = some (timeoutAftermath s d rest k) := by
  have hloop : transmitLoop env = some (k, USBD_Status.BUSY) := by
    unfold transmitLoop
    rw [hfire]
    exact transmitLoopFrom_busy env.res hres k env.fuel 0 (Nat.zero_le k)
      (by omega)
  unfold iterStep
  rw [hq]
  simp only [hflag, Bool.false_eq_true, if_false, hloop]
  unfold timeoutAftermath afterBranch
  simp [hfire, flagAfter]

/-- Claim C3: with an always-busy transport, a consumer iteration that
dequeues `d` keeps re-invoking transmit (attempts `0 … k`, i.e. `k + 1`
calls) until the timer callback sets the flag after attempt `k`, then stops
transmitting `d`, waits the fixed retry interval `USB_TIMEOUT_RETRY_INTERVAL`,
clears the flag, resets the timer, and leaves the subsequent frames `rest`
queued; afterwards, in any continued run that neither has `rest` containing
a frame with `d`'s transport pair nor enqueues one, `d`'s pair is never
handed to the transport again. -/
theorem C3_busy_until_timeout_then_drop
    (s : TaskState) (d : USB_Task_DataStruct) (rest : List USB_Task_DataStruct)
    (env : IterEnv) (k : Nat)
    (hq : s.queue = d :: rest) (hflag : s.is_usb_timeout = false)
    (hres : ∀ i, env.res i = USBD_Status.BUSY) (hfire : env.fire = some k)
    (hfuel : k < env.fuel) :
    iterStep s env = some (timeoutAftermath s d rest k) ∧
      (timeoutAftermath s d rest k).transmitted =
        s.transmitted ++ List.replicate (k + 1) (framePair d) ∧
      (timeoutAftermath s d rest k).is_usb_timeout = false ∧
      (timeoutAftermath s d rest k).delays =
        s.delays ++ [USB_TIMEOUT_RETRY_INTERVAL] ∧
      (timeoutAftermath s d rest k).timerResets = s.timerResets + 1 ∧
      (timeoutAftermath s d rest k).queue = rest ∧
      ∀ (evs : List Event) (s'' : TaskState),
        runEvents (timeoutAftermath s d rest k) evs = some s'' →
        (∀ f, f ∈ rest → framePair f ≠ framePair d) →
        (∀ ptr len, Event.writeEv ptr len ∈ evs →
          framePair (writeData ptr len) ≠ framePair d) →
        ∃ ext, s''.transmitted =
            (timeoutAftermath s d rest k).transmitted ++ ext ∧
          framePair d ∉ ext := by
  refine ⟨iterStep_busy s d rest env k hq hflag hres hfire hfuel,
    rfl, rfl, rfl, rfl, rfl, ?_⟩
  intro evs s'' hrun hrest hw
  refine transmit_fresh_only evs _ s'' (framePair d) hrun ?_ hw
  intro f hf
  simp only [timeoutAftermath] at hf
  exact hrest f hf

theorem C3_busy_until_timeout_then_drop_witness :
    iterStep twoFrameState busyEnv =
        some (timeoutAftermath twoFrameState frameA [frameB] 2) ∧
      ∃ ext,
        ({ queue := [], is_usb_timeout := false, suspended := true,
           transmitted := [([1], 1), ([1], 1), ([1], 1), ([2], 1)],
           enqueued := [], delays := [USB_TIMEOUT_RETRY_INTERVAL],
           timerResets := 1, timerStarts := 2 } : TaskState).transmitted =
            (timeoutAftermath twoFrameState frameA [frameB] 2).transmitted ++
              ext ∧
          framePair frameA ∉ ext := by
  have h := C3_busy_until_timeout_then_drop twoFrameState frameA [frameB]
    busyEnv 2 rfl rfl (fun i => rfl) rfl (by decide)
  refine ⟨h.1, ?_⟩
  refine h.2.2.2.2.2.2 [Event.taskIter okEnv] _ (by decide) ?_ ?_
  · intro f hf
    rw [List.mem_singleton] at hf
    subst hf
    decide
  · intro ptr len hmem
    simp at hmem

/-- Claim C8: a consumer iteration that dequeues a frame `d` while the
timeout flag is already set drops `d` silently: the transmit branch is
skipped entirely (no `CDC_Transmit_FS` call, no `xTimerStart`), the queue
loses `d`, and the timeout branch runs; afterwards, in any continued run
that neither has `rest` containing a frame with `d`'s transport pair nor
enqueues one, `d`'s bytes are never handed to the transport. -/
theorem C8_flagged_dequeue_silently_dropped
    (s : TaskState) (d : USB_Task_DataStruct) (rest : List USB_Task_DataStruct)
    (env : IterEnv) (hq : s.queue = d :: rest) (hflag : s.is_usb_timeout = true) :
    iterStep s env = some (flaggedDropState s rest) ∧
      (flaggedDropState s rest).transmitted = s.transmitted ∧
      (flaggedDropState s rest).timerStarts = s.timerStarts ∧
      (flaggedDropState s rest).queue = rest ∧
      ∀ (evs : List Event) (s'' : TaskState),
        runEvents (flaggedDropState s rest) evs = some s'' →
        (∀ f, f ∈ rest → framePair f ≠ framePair d) →
        (∀ ptr len, Event.writeEv ptr len ∈ evs →
          framePair (writeData ptr len) ≠ framePair d) →
        ∃ ext, s''.transmitted = s.transmitted ++ ext ∧ framePair d ∉ ext := by
  have hstep : iterStep s env = some (flaggedDropState s rest) := by
    unfold iterStep
    rw [hq]
    simp only [hflag, if_true]
    unfold afterBranch flaggedDropState
    simp [hflag]
  refine ⟨hstep, rfl, rfl, rfl, ?_⟩
  intro evs s'' hrun hrest hw
  refine transmit_fresh_only evs (flaggedDropState s rest) s'' (framePair d)
    hrun ?_ hw
  intro f hf
  simp only [flaggedDropState] at hf
  exact hrest f hf

theorem C8_flagged_dequeue_silently_dropped_witness :
    iterStep { initState with queue := [frameA, frameB], is_usb_timeout := true }
        okEnv =
      some (flaggedDropState
        { initState with queue := [frameA, frameB], is_usb_timeout := true }
        [frameB]) ∧
      ∃ ext,
        ({ queue := [], is_usb_timeout := false, suspended := true,
           transmitted := [([2], 1)], enqueued := [],
           delays := [USB_TIMEOUT_RETRY_INTERVAL], timerResets := 1,
           timerStarts := 1 } : TaskState).transmitted = [] ++ ext ∧
          framePair frameA ∉ ext := by
  have h := C8_flagged_dequeue_silently_dropped
    { initState with queue := [frameA, frameB], is_usb_timeout := true }
    frameA [frameB] okEnv rfl rfl
  refine ⟨h.1, ?_⟩
  refine h.2.2.2.2 [Event.taskIter okEnv] _ (by decide) ?_ ?_
  · intro f hf
    rw [List.mem_singleton] at hf
    subst hf
    decide
  · intro ptr len hmem
    simp at hmem

/-- Claim C1 counterexample: the loop condition is
`rc == USBD_BUSY && is_usb_timeout == pdFALSE`, so a `USBD_FAIL` result is
NOT retried.  Concretely: with an always-failing transport and the timer
never firing, the retry loop exits at the very first attempt with `FAIL`
(first conjunct) — whereas with an always-busy transport under the same
conditions it really does keep retrying (second conjunct: with fuel 5 the
loop consumes all fuel without exiting) — and a full iteration on a
one-frame queue makes exactly one transmit call, abandons the frame, and
suspends, contradicting "keeps re-invoking transmit on a Fail result …
until either success or the TimeoutFlag becomes set". -/
theorem C1_fail_retried_counterexample :
    transmitLoop failEnv = some (0, USBD_Status.FAIL) ∧
      transmitLoop { res := fun _ => USBD_Status.BUSY, fire := none, fuel := 5 } =
        none ∧
      iterStep { initState with queue := [frameA] } failEnv =
        some { queue := [], is_usb_timeout := false, suspended := true,
               transmitted := [([1], 1)], enqueued := [], delays := [],
               timerResets := 0, timerStarts := 1 } := by
  refine ⟨by decide, by decide, by decide⟩

/-- Claim C1 as amended: in the consumer's transmit loop only `USBD_BUSY`
is retried; a `USBD_FAIL` result exits the retry loop immediately after
that single attempt (handled like success for loop control), so the
dequeued frame is abandoned on the first `Fail` — exactly one transmit
call is recorded and the frame is removed — and the ordinary (non-timeout)
loop tail follows. -/
theorem C1_amended_fail_exits_loop
    (s : TaskState) (d : USB_Task_DataStruct) (rest : List USB_Task_DataStruct)
    (env : IterEnv) (hq : s.queue = d :: rest) (hflag : s.is_usb_timeout = false)
    (hres : env.res 0 = USBD_Status.FAIL) (hfire : env.fire = none)
    (hfuel : 1 ≤ env.fuel) :
    transmitLoop env = some (0, USBD_Status.FAIL) ∧
      iterStep s env =
        some (afterBranch
          { s with queue := rest, timerStarts := s.timerStarts + 1,
                   transmitted := s.transmitted ++ [framePair d],
                   is_usb_timeout := false }) := by
  have hnb : env.res 0 ≠ USBD_Status.BUSY := by
    rw [hres]
    decide
  have hloop : transmitLoop env = some (0, env.res 0) :=
    transmitLoop_first_not_busy env hnb hfuel
  rw [hres] at hloop
  refine ⟨hloop, ?_⟩
  unfold iterStep
  rw [hq]
  simp only [hflag, Bool.false_eq_true, if_false, hloop]
  rw [hfire]
  simp [flagAfter]

theorem C1_amended_fail_exits_loop_witness :
    transmitLoop failEnv = some (0, USBD_Status.FAIL) ∧
      iterStep { initState with queue := [frameA] } failEnv =
        some (afterBranch
          { initState with queue := [], timerStarts := 1,
                           transmitted := [framePair frameA],
                           is_usb_timeout := false }) := by
  have h := C1_amended_fail_exits_loop { initState with queue := [frameA] }
    frameA [] failEnv rfl rfl rfl rfl (by decide)
  simpa using h

/-- Computation of an iteration whose first transmit attempt is not
`USBD_BUSY` and during which the timer does not fire: exactly one transmit
call, the frame is dequeued, and the ordinary loop tail follows. -/
lemma iterStep_head_exit (s : TaskState) (d : USB_Task_DataStruct)
    (rest : List USB_Task_DataStruct) (env : IterEnv)
    (hq : s.queue = d :: rest) (hflag : s.is_usb_timeout = false)
    (hres : env.res 0 ≠ USBD_Status.BUSY) (hfire : env.fire = none)
    (hfuel : 1 ≤ env.fuel) :
    iterStep s env =
      some (afterBranch
        { s with queue := rest, timerStarts := s.timerStarts + 1,
                 transmitted := s.transmitted ++ [framePair d],
                 is_usb_timeout := false }) := by
  have hloop : transmitLoop env = some (0, env.res 0) :=
    transmitLoop_first_not_busy env hres hfuel
  unfold iterStep
  rw [hq]
  simp only [hflag, Bool.false_eq_true, if_false, hloop]
  rw [hfire]
  simp [flagAfter]


/-- FIFO invariant: along any run whose transport always succeeds and whose
timer never fires, the pairs of the ghost enqueue trace are exactly the
transmit trace followed by the pairs of the frames still queued, and the
timeout flag stays clear. -/
lemma fifo_invariant (evs : List Event) :
    ∀ s s' : TaskState,
      (∀ e, e ∈ evs → alwaysOkEvent e) →
      runEvents s evs = some s' →
      s.enqueued.map framePair = s.transmitted ++ s.queue.map framePair →
      s.is_usb_timeout = false →
      s'.enqueued.map framePair = s'.transmitted ++ s'.queue.map framePair ∧
        s'.is_usb_timeout = false := by
  induction evs with
  | nil =>
    intro s s' _ h hinv hflag
    obtain rfl := (Option.some.inj h).symm
    exact ⟨hinv, hflag⟩
  | cons e rest ih =>
    intro s s' hok h hinv hflag
    unfold runEvents at h
    split at h
    · exact Option.noConfusion h
    · rename_i s1 heq
      have hoke := hok e (List.mem_cons_self e rest)
      have hokr : ∀ e', e' ∈ rest → alwaysOkEvent e' :=
        fun e' he' => hok e' (List.mem_cons_of_mem e he')
      have hstep_inv :
          s1.enqueued.map framePair =
              s1.transmitted ++ s1.queue.map framePair ∧
            s1.is_usb_timeout = false := by
        cases e with
        | writeEv ptr len =>
          obtain rfl := (Option.some.inj heq).symm
          refine ⟨?_, hflag⟩
          rcases writeStep_cases s ptr len with ⟨ht, hcase⟩
          rcases hcase with ⟨hqe, hee⟩ | ⟨hqe, hee⟩
          · rw [hqe, hee, ht]
            exact hinv
          · rw [hqe, hee, ht, List.map_append, hinv, List.map_append,
              List.append_assoc]
        | timerFire => exact absurd hoke (by simp [alwaysOkEvent])
        | taskIter env =>
          simp only [runStep] at heq
          split at heq
          · exact Option.noConfusion heq
          · rcases hoke with ⟨hres, hfire⟩
            rcases hq : s.queue with _ | ⟨d, rest'⟩
            · have hstep : iterStep s env = some (afterBranch s) := by
                unfold iterStep
                rw [hq]
              rw [hstep] at heq
              obtain rfl := (Option.some.inj heq).symm
              refine ⟨?_, afterBranch_flag s⟩
              rw [afterBranch_enqueued, afterBranch_transmitted,
                afterBranch_queue]
              exact hinv
            · have hfuel : 1 ≤ env.fuel := by
                by_contra hf0
                have hfu : env.fuel = 0 := by omega
                have hnone : transmitLoop env = none := by
                  unfold transmitLoop
                  rw [hfu]
                  rfl
                unfold iterStep at heq
                rw [hq] at heq
                simp only [hflag, Bool.false_eq_true, if_false, hnone] at heq
                exact Option.noConfusion heq
              have hstep := iterStep_head_exit s d rest' env hq hflag
                (by rw [hres 0]; decide) hfire hfuel
              rw [hstep] at heq
              obtain rfl := (Option.some.inj heq).symm
              refine ⟨?_, afterBranch_flag _⟩
              rw [afterBranch_enqueued, afterBranch_transmitted,
                afterBranch_queue]
              show s.enqueued.map framePair =
                (s.transmitted ++ [framePair d]) ++ rest'.map framePair
              rw [hinv, hq, List.map_cons, List.append_assoc]
              rfl
      exact ih s1 s' hokr h hstep_inv.1 hstep_inv.2

/-- Claim C2 counterexample: FIFO delivery with no skipping fails in an
execution where the transport always reports success.  The timeout timer is
auto-reloading and never stopped, so after a successful transmit it can
fire while the task sits suspended (`timerFire` after the first
`taskIter`); the next enqueued frame is then dequeued with the flag set and
silently dropped.  Concretely: two frames are successfully enqueued
(`enqueued` trace has both) and every transmit call returned `USBD_OK`
(`transportOkEvent` holds for every event of the run), yet after the queue
is fully drained the transport saw only the first frame — the enqueue
sequence and the transmit sequence differ. -/
theorem C2_fifo_counterexample :
    transportOkEvent (Event.writeEv [7] 1) ∧
      transportOkEvent (Event.taskIter okEnv) ∧
      transportOkEvent Event.timerFire ∧
      transportOkEvent (Event.writeEv [8] 1) ∧
      runEvents initState
          [Event.writeEv [7] 1, Event.taskIter okEnv, Event.timerFire,
           Event.writeEv [8] 1, Event.taskIter okEnv, Event.taskIter okEnv] =
        some { queue := [], is_usb_timeout := false, suspended := true,
               transmitted := [([7], 1)],
               enqueued := [⟨[7], 1⟩, ⟨[8], 1⟩],
               delays := [USB_TIMEOUT_RETRY_INTERVAL], timerResets := 1,
               timerStarts := 1 } ∧
      [([7], 1)] ≠
        ([⟨[7], 1⟩, ⟨[8], 1⟩] : List USB_Task_DataStruct).map framePair :=
  ⟨trivial, fun i => rfl, trivial, trivial, by decide, by decide⟩

/-- Claim C2 as amended: provided the transport always reports success AND
the timeout timer never fires during the execution, frames are delivered to
the transport in strict enqueue order: along any such run from the initial
state, the pairs of the successfully enqueued frames are exactly the pairs
already passed to transmit followed by the pairs still queued (FIFO, no
reordering, duplication, or skipping), and once the queue is drained the
transmit sequence equals the enqueue sequence. -/
theorem C2_fifo_order_no_timeout (evs : List Event) (s' : TaskState)
    (hok : ∀ e, e ∈ evs → alwaysOkEvent e)
    (h : runEvents initState evs = some s') :
    s'.enqueued.map framePair = s'.transmitted ++ s'.queue.map framePair ∧
      (s'.queue = [] → s'.transmitted = s'.enqueued.map framePair) := by
  have hi := fifo_invariant evs initState s' hok h (by simp [initState]) rfl
  refine ⟨hi.1, ?_⟩
  intro hq
  rw [hi.1, hq]
  simp

theorem C2_fifo_order_no_timeout_witness :
    ([⟨[7, 8], 2⟩] : List USB_Task_DataStruct).map framePair =
        [([7, 8], 2)] ++ ([] : List USB_Task_DataStruct).map framePair ∧
      [([7, 8], 2)] =
        ([⟨[7, 8], 2⟩] : List USB_Task_DataStruct).map framePair := by
  have h := C2_fifo_order_no_timeout
    [Event.writeEv [7, 8] 2, Event.taskIter okEnv]
    { queue := [], is_usb_timeout := false, suspended := true,
      transmitted := [([7, 8], 2)], enqueued := [⟨[7, 8], 2⟩],
      delays := [], timerResets := 0, timerStarts := 1 }
    (by
      intro e he
      simp only [List.mem_cons, List.mem_singleton] at he
      rcases he with rfl | rfl | hfalse
      · trivial
      · exact ⟨fun i => rfl, rfl⟩
      · exact absurd hfalse (List.not_mem_nil e))
    (by decide)
  exact ⟨h.1, h.2 rfl⟩
